import Mathlib

/-!
Shallow embedding of the latency-critical trading pipeline of this
repository (Go), together with proofs and refutations of the frozen
claims about it.

Conventions of the embedding:
* machine integers (`uint64`, `int64`, `int`) are modelled as `Nat`/`Int`
  (no overflow is relevant to any claim here);
* Go `float64` fields are modelled as `ℚ` (the claims are about guard
  structure and exact equalities, never about rounding);
* `time.Time` / monotonic instants are modelled as `Nat` (seconds unless
  stated otherwise); `time.Since(t)` at instant `now` is `now - t`
  (truncated `Nat` subtraction, which agrees with Go for past instants);
* Go maps keyed by strings or ints are modelled as association lists
  with unique keys (insert replaces);
* fallible calls return `Except`/`Option`; network I/O is modelled by
  explicit oracles passed as arguments;
* a Go function that would panic (index out of range, nil dereference)
  is modelled as returning `none` / a dedicated outcome.
-/

namespace SolanaBot

/-! ## Association-list map helpers (model of Go maps) -/

/-- Look up a key in an association list. -/
def alookup {α β : Type} [DecidableEq α] (m : List (α × β)) (k : α) : Option β :=
  match m with
  | [] => none
  | (k2, v) :: rest => if k2 = k then some v else alookup rest k

/-- Insert (or replace) a key in an association list. -/
def ainsert {α β : Type} [DecidableEq α] (m : List (α × β)) (k : α) (v : β) :
    List (α × β) :=
  match m with
  | [] => [(k, v)]
  | (k2, v2) :: rest => if k2 = k then (k, v) :: rest else (k2, v2) :: ainsert rest k v

/-- Delete a key from an association list. -/
def aerase {α β : Type} [DecidableEq α] (m : List (α × β)) (k : α) : List (α × β) :=
  match m with
  | [] => []
  | (k2, v2) :: rest => if k2 = k then rest else (k2, v2) :: aerase rest k

/-! ## RPC circuit breaker (src/unnamed/part_017, `RPCClient`)

State and transitions of the circuit breaker.  Times are in seconds. -/

/-- Circuit-breaker state carried by `RPCClient`
(`failures`, `lastFailure`, `circuitOpen`). -/
structure RPCCircuit where
  failures : Nat
  lastFailure : Nat
  circuitOpen : Bool
deriving Repr, DecidableEq

/-- `RPCClient.recordFailure`: increment `failures`, stamp `lastFailure`,
open the circuit once `failures >= 5`. -/
def recordFailure (now : Nat) (c : RPCCircuit) : RPCCircuit :=
  let f := c.failures + 1
  { failures := f
    lastFailure := now
    circuitOpen := if f ≥ 5 then true else c.circuitOpen }

/-- `RPCClient.recordSuccess`: reset `failures` and close the circuit. -/
def recordSuccess (c : RPCCircuit) : RPCCircuit :=
  { c with failures := 0, circuitOpen := false }

/-- `RPCClient.isCircuitOpen`: open only if the flag is set and the last
failure is within 30 seconds (`time.Since(lastFailure) > 30s` resets). -/
def isCircuitOpen (now : Nat) (c : RPCCircuit) : Bool :=
  c.circuitOpen && !(now - c.lastFailure > 30)

/-- Which URL an RPC attempt goes to. -/
inductive CallStep where
  | primary
  | fallback
deriving Repr, DecidableEq

/-- `RPCClient.call`: if the circuit is open go straight to the fallback;
otherwise try the primary, and on failure record it and retry on the
fallback (fallback results are never recorded).  Returns the list of
URLs attempted, in order, and the new circuit state. -/
def rpcCall (now : Nat) (c : RPCCircuit) (primaryOk : Bool) :
    List CallStep × RPCCircuit :=
  if isCircuitOpen now c then ([CallStep.fallback], c)
  else if primaryOk then ([CallStep.primary], recordSuccess c)
  else ([CallStep.primary, CallStep.fallback], recordFailure now c)

/-- Fold a sequence of recorded primary failures (no intervening success). -/
def recordFailures (c : RPCCircuit) (ts : List Nat) : RPCCircuit :=
  ts.foldl (fun acc t => recordFailure t acc) c

/-! ## Position and its statistics (src/internal/trading/position.go) -/

/-- `trading.Position` (mutable fields; the `sync.RWMutex` is omitted,
the embedding is sequential). -/
structure Position where
  mint : String
  tokenName : String
  size : ℚ
  entryValue : ℚ
  entryUnit : String
  entryTime : Nat
  entryTxSig : String
  msgID : Int
  poolAddr : String
  currentValue : ℚ
  pnlSol : ℚ
  pnlPercent : ℚ
  reached2X : Bool
  partialSold : Bool
  tokenBalance : Nat
  lastUpdate : Nat
deriving Repr, DecidableEq

/-- `Position.UpdateStats`: always stores the token balance, the absolute
PnL and the update instant; computes the multiple and the derived fields
only under the `p.Size > 0` guard.  Returns the updated position and the
multiple (0.0 when the guard fails). -/
def updateStats (now : Nat) (p : Position) (currentValSol : ℚ) (tokenBalance : Nat) :
    Position × ℚ :=
  let p1 := { p with
    tokenBalance := tokenBalance
    pnlSol := currentValSol - p.size
    lastUpdate := now }
  if p.size > 0 then
    let multiple := currentValSol / p.size
    ({ p1 with
        pnlPercent := (multiple - 1) * 100
        currentValue := multiple * p.entryValue }, multiple)
  else
    (p1, 0)

/-! ## Token-account queries
(src/internal/blockchain/rpc_ext.go `GetAllTokenAccounts` and
src/unnamed/part_017 `GetTokenAccountsByOwner` / `fetchTokenAccounts`) -/

/-- The legacy SPL Token program ID (src/unnamed/part_017). -/
def TokenProgramID : String := "TokenkegQfeZyiNwAJbNbGKPFXCWuBvf9Ss623VQ5DA"

/-- The Token-2022 program ID (src/unnamed/part_017). -/
def Token2022ProgramID : String := "TokenzQdBNbLqP5VEhdkAS6EPFLC1PHnBqCXEpPxuEb"

/-- The filter object passed to the `getTokenAccountsByOwner` JSON-RPC
method: either a `programId` filter or a `mint` filter. -/
inductive TokenFilter where
  | byProgram (pid : String)
  | byMint (mint : String)
deriving Repr, DecidableEq

/-- `blockchain.TokenAccountInfo` (amounts already parsed from the JSON
response; the string-to-integer parse is library code). -/
structure TokenAccountInfo where
  address : String
  mint : String
  amount : Nat
  decimals : Nat
deriving Repr, DecidableEq

/-- Oracle modelling one `getTokenAccountsByOwner` RPC round trip through
`RPCClient.call` for a given owner and filter: either the decoded account
list or a transport/RPC error. -/
def TokenOracle : Type := String → TokenFilter → Except String (List TokenAccountInfo)

/-- `rpc_ext.go` `GetAllTokenAccounts`: issues a single
`getTokenAccountsByOwner` query filtered by the LEGACY program ID only,
and returns its result.  The first component records the sub-queries
issued, in order. -/
def getAllTokenAccounts (oracle : TokenOracle) (owner : String) :
    List TokenFilter × Except String (List TokenAccountInfo) :=
  ([TokenFilter.byProgram TokenProgramID],
   oracle owner (TokenFilter.byProgram TokenProgramID))

/-- `part_017` `fetchTokenAccounts`: one `getTokenAccountsByOwner` query
with the given filter. -/
def fetchTokenAccounts (oracle : TokenOracle) (owner : String) (filter : TokenFilter) :
    Except String (List TokenAccountInfo) :=
  oracle owner filter

/-- `part_017` `GetTokenAccountsByOwner`: with a non-empty mint, a single
mint-filtered query; with an empty mint, query the legacy program and the
Token-2022 program and concatenate, failing the whole batch if either
sub-query fails.  The first component records the sub-queries issued. -/
def getTokenAccountsByOwner (oracle : TokenOracle) (owner mint : String) :
    List TokenFilter × Except String (List TokenAccountInfo) :=
  if mint ≠ "" then
    ([TokenFilter.byMint mint], fetchTokenAccounts oracle owner (TokenFilter.byMint mint))
  else
    match fetchTokenAccounts oracle owner (TokenFilter.byProgram TokenProgramID) with
    | Except.error e => ([TokenFilter.byProgram TokenProgramID], Except.error e)
    | Except.ok accounts =>
      match fetchTokenAccounts oracle owner (TokenFilter.byProgram Token2022ProgramID) with
      | Except.error e =>
        ([TokenFilter.byProgram TokenProgramID, TokenFilter.byProgram Token2022ProgramID],
         Except.error ("failed to fetch Token-2022 accounts: " ++ e))
      | Except.ok accounts2022 =>
        ([TokenFilter.byProgram TokenProgramID, TokenFilter.byProgram Token2022ProgramID],
         Except.ok (accounts ++ accounts2022))

/-- Oracle mirroring the repository's own test
`TestGetAllTokenAccounts_PartialFailure`: the legacy query succeeds with
an empty list, the Token-2022 query fails with HTTP 500. -/
def partialFailureOracle : TokenOracle := fun _ filter =>
  match filter with
  | TokenFilter.byProgram pid =>
    if pid = TokenProgramID then Except.ok []
    else Except.error "http status 500: fail"
  | TokenFilter.byMint _ => Except.ok []

/-- A legacy-program token account (from `TestGetAllTokenAccounts_Batch`). -/
def acctLegacy : TokenAccountInfo :=
  { address := "LegacyAccount1", mint := "LegacyMint1", amount := 1000, decimals := 9 }

/-- A Token-2022 token account (from `TestGetAllTokenAccounts_Batch`). -/
def acct2022 : TokenAccountInfo :=
  { address := "Token2022Account1", mint := "Token2022Mint1", amount := 2000, decimals := 9 }

/-- Oracle mirroring `TestGetAllTokenAccounts_Batch`: the legacy query
returns one account and the Token-2022 query returns another. -/
def bothProgramsOracle : TokenOracle := fun _ filter =>
  match filter with
  | TokenFilter.byProgram pid =>
    if pid = TokenProgramID then Except.ok [acctLegacy]
    else if pid = Token2022ProgramID then Except.ok [acct2022]
    else Except.ok []
  | TokenFilter.byMint _ => Except.ok []

/-! ## Signals and the ingress HTTP server (src/internal/signal) -/

/-- `signal.SignalType` (Entry / Exit / Other). -/
inductive SignalType where
  | entry
  | exit
  | other
deriving Repr, DecidableEq

/-- `signal.Signal`. -/
structure Signal where
  tokenName : String
  mint : String
  type : SignalType
  value : ℚ
  unit : String
  msgID : Int
  timestamp : Nat
deriving Repr, DecidableEq

/-- One `POST /signal` request as seen by `Server.handleSignal`:
`source` and `arrivalTime` identify the sender and the instant of the
request (carried to express rolling-window properties); `bodyValid` is
the outcome of fiber's `BodyParser`, and `parseResult` the outcome of
`Parser.Parse` on the payload text (`error` = parse error, `ok none` =
no pattern matched, `ok (some s)` = parsed signal). -/
structure SignalRequest where
  source : String
  arrivalTime : Nat
  bodyValid : Bool
  parseResult : Except String (Option Signal)

/-- `Server.handleSignal`: HTTP status returned for one request.
400 on body-parse or signal-parse error, otherwise 200 (both for the
no-pattern case and the accepted case; a full signal channel still
returns 200).  Note: the handler consults neither the request source nor
its arrival time — there is no rate accounting anywhere. -/
def handleSignal (req : SignalRequest) : Nat :=
  if !req.bodyValid then 400
  else
    match req.parseResult with
    | Except.error _ => 400
    | Except.ok none => 200
    | Except.ok (some _) => 200

/-- `Server.setupRoutes` + dispatch: `GET /health` and `POST /signal` are
the only routes registered on the fiber app; no rate-limiter middleware
is installed by `NewServer` or `setupRoutes`. -/
def serverRespond (method path : String) (req : SignalRequest) : Nat :=
  if method = "GET" && path = "/health" then 200
  else if method = "POST" && path = "/signal" then handleSignal req
  else 404

/-- A well-formed `POST /signal` request from a single source (a valid
body whose text parses to an Entry signal). -/
def goodSignalRequest : SignalRequest :=
  { source := "listener-1"
    arrivalTime := 0
    bodyValid := true
    parseResult := Except.ok (some
      { tokenName := "TEST", mint := "", type := SignalType.entry
        value := 100, unit := "%", msgID := 123, timestamp := 0 }) }

/-! ## The reached-2X counter (src/unnamed/part_023, `ExecutorFast`)

The state machine of the statistics that claim C7 quantifies over: the
position map (only the per-position `Reached2X` flag matters to the
counter), the `reached2X` counter, the `totalEntrySignals` counter and
the `seen2X` map.  Each operation is the exact effect of the
corresponding code path on these fields. -/

/-- The statistics-relevant state of `ExecutorFast` plus the tracker's
position map restricted to the `Reached2X` flag. -/
structure StatsState where
  positions : List (String × Bool)
  reached2X : Nat
  totalEntrySignals : Nat
  seen2X : List String
deriving Repr, DecidableEq

/-- The operations of claim C7.  `enterPosition` is `PositionTracker.Add`
of a freshly constructed position (whose `Reached2X` zero value is
false); `sellSignalStats` is the stats prologue of `executeSellFast`
(guarded by `pos.IsReached2X`, then `SetReached2X(true)` and
`Increment2XHit`); `monitorHit` is the monitor tick's take-profit branch
(same guard and increment); `removePosition` is `PositionTracker.Remove`;
`resetStats` is `ExecutorFast.ResetStats`. -/
inductive StatsOp where
  | enterPosition (mint : String)
  | sellSignalStats (mint : String)
  | monitorHit (mint : String)
  | removePosition (mint : String)
  | resetStats
deriving Repr, DecidableEq

/-- One step of the reached-2X statistics machine.  Note that no
operation ever writes to or reads from `seen2X`: the code only resizes
it in `markSignalSeen`, and the increment sites consult only the
per-position flag. -/
def statsStep (st : StatsState) (op : StatsOp) : StatsState :=
  match op with
  | StatsOp.enterPosition m =>
    { st with positions := ainsert st.positions m false }
  | StatsOp.sellSignalStats m | StatsOp.monitorHit m =>
    match alookup st.positions m with
    | some false =>
      { st with positions := ainsert st.positions m true
                reached2X := st.reached2X + 1 }
    | _ => st
  | StatsOp.removePosition m =>
    { st with positions := aerase st.positions m }
  | StatsOp.resetStats =>
    { st with reached2X := 0, totalEntrySignals := 0 }

/-- Run a sequence of statistics operations. -/
def statsRun (st : StatsState) (ops : List StatsOp) : StatsState :=
  ops.foldl statsStep st

/-- The executor's initial statistics state (`NewExecutorFast`). -/
def statsInit : StatsState :=
  { positions := [], reached2X := 0, totalEntrySignals := 0, seen2X := [] }

/-! ## Blockhash cache (src/internal/blockchain/wallet.go, `BlockhashCache`)

`current` and `next` are the two atomic buffer cells; the embedding is
sequential (one `Get` or one rotation at a time).  Times are abstract
instants (`Nat`); `fetch` is the outcome of `rpc.GetLatestBlockhash`,
`none` meaning the RPC call failed, `some nh` a hash fetched with
`nh.fetchedAt = time.Now()` at the fetch. -/

/-- `blockchain.CachedBlockhash`. -/
structure CachedBlockhash where
  hash : String
  lastValidBlockHeight : Nat
  fetchedAt : Nat
deriving Repr, DecidableEq

/-- The two buffer cells of `BlockhashCache` (`nil` pointer = `none`). -/
structure BHState where
  current : Option CachedBlockhash
  next : Option CachedBlockhash
deriving Repr, DecidableEq

/-- `BlockhashCache.fetchAndRotate`: on fetch failure return the error
leaving both buffers alone; on success rotate — old `next` becomes
`current`, the new fetch becomes `next`, and if `current` was null
before the rotation, mirror the new fetch into `current` as well.
The boolean is `true` on success. -/
def fetchAndRotate (st : BHState) (fetch : Option CachedBlockhash) : BHState × Bool :=
  match fetch with
  | none => (st, false)
  | some nh =>
    let st1 : BHState := { current := st.next, next := some nh }
    if st.current = none then ({ st1 with current := some nh }, true)
    else (st1, true)

/-- The freshness test `time.Since(cb.FetchedAt) < c.ttl` used by `Get`. -/
def bhFresh (ttl now : Nat) (cb : CachedBlockhash) : Bool :=
  now - cb.fetchedAt < ttl

/-- Result of one `BlockhashCache.Get` call: the returned value together
with whether it was a hit, an error return (miss with failed fetch), or
the unreachable nil dereference after a rotation that left `current`
null. -/
inductive BHOutcome where
  | ok (cb : CachedBlockhash) (hit : Bool)
  | err
  | nilPanic
deriving Repr, DecidableEq

/-- The miss path of `Get`: force a synchronous `fetchAndRotate` and
return the value then found in the `current` buffer. -/
def bhGetMiss (st : BHState) (fetch : Option CachedBlockhash) : BHOutcome × BHState :=
  let res := fetchAndRotate st fetch
  if res.2 then
    match res.1.current with
    | some c2 => (BHOutcome.ok c2 false, res.1)
    | none => (BHOutcome.nilPanic, res.1)
  else (BHOutcome.err, st)

/-- Step 2 of `Get`: try the `next` buffer, else take the miss path. -/
def bhGetNext (ttl now : Nat) (st : BHState) (fetch : Option CachedBlockhash) :
    BHOutcome × BHState :=
  match st.next with
  | some nb =>
    if bhFresh ttl now nb then (BHOutcome.ok nb true, st)
    else bhGetMiss st fetch
  | none => bhGetMiss st fetch

/-- `BlockhashCache.Get`: return `current` if non-null and fresh, else
`next` if non-null and fresh, else force a synchronous refresh and
return what the `current` buffer then holds. -/
def bhGet (ttl now : Nat) (st : BHState) (fetch : Option CachedBlockhash) :
    BHOutcome × BHState :=
  match st.current with
  | some cb =>
    if bhFresh ttl now cb then (BHOutcome.ok cb true, st)
    else bhGetNext ttl now st fetch
  | none => bhGetNext ttl now st fetch

/-- Run a sequence of `fetchAndRotate` executions (background prefetch
ticks and synchronous miss refreshes alike). -/
def bhRun (st : BHState) (fs : List (Option CachedBlockhash)) : BHState :=
  fs.foldl (fun s f => (fetchAndRotate s f).1) st

/-- Buffer invariant: the `next` buffer is never older than `current`. -/
def bhInv (st : BHState) : Prop :=
  ∀ c n, st.current = some c → st.next = some n → c.fetchedAt ≤ n.fetchedAt

/-- Both buffers were fetched no later than instant `t`. -/
def bhBound (st : BHState) (t : Nat) : Prop :=
  (∀ c, st.current = some c → c.fetchedAt ≤ t) ∧
  (∀ n, st.next = some n → n.fetchedAt ≤ t)

/-- The fetch instants of a sequence of fetch outcomes are non-decreasing
and start no earlier than `t0` (the clock only moves forward between
successive `GetLatestBlockhash` calls). -/
def timesOK : Nat → List (Option CachedBlockhash) → Prop
  | _, [] => True
  | t0, none :: rest => timesOK t0 rest
  | t0, some nh :: rest => t0 ≤ nh.fetchedAt ∧ timesOK nh.fetchedAt rest

/-! ## Transaction signing (src/internal/blockchain/wallet.go,
`TransactionBuilder.SignSerializedTransaction`)

The embedding works on decoded byte lists (base64 decode and encode are
inverse library functions, so the claim's round trip through base64
reduces to the byte level).  The wallet's Ed25519 signer is an abstract
deterministic function `sign` producing 64-byte signatures; a signature
`s` is valid for message `m` by this wallet iff `s = sign m` (Ed25519
signing is deterministic for a fixed key). -/

/-- The compact-array signature count: the first byte of the wire
transaction (`int(txBytes[0])`). -/
def sigCountByte (tx : List Nat) : Nat := tx.headD 0

/-- The message portion of a wire transaction: everything after the
count byte and the `sigCount x 64` signature bytes. -/
def messageBytes (tx : List Nat) : List Nat := tx.drop (1 + 64 * sigCountByte tx)

/-- The first 64-byte signature slot of a wire transaction. -/
def signatureSlot0 (tx : List Nat) : List Nat := (tx.drop 1).take 64

/-- `SignSerializedTransaction` on decoded bytes: with count 0, emit
`[1] ++ sign(message) ++ message`; with count `c >= 1`, sign the bytes
from offset `1 + 64c` and overwrite slot 0 in place.  `none` models the
panics of the Go code on an empty buffer or one shorter than the
signature section. -/
def signSerializedTransaction (sign : List Nat → List Nat) (tx : List Nat) :
    Option (List Nat) :=
  match tx with
  | [] => none
  | c :: rest =>
    if c = 0 then
      some (1 :: (sign rest ++ rest))
    else if 64 * c ≤ rest.length then
      some (c :: (sign (rest.drop (64 * c)) ++ rest.drop 64))
    else none

/-- A concrete deterministic 64-byte signer used by witnesses. -/
def dummySign (m : List Nat) : List Nat := List.replicate 64 (m.length % 256)

/-- A concrete wire transaction with count byte 1, one zeroed signature
slot and a 3-byte message. -/
def exampleWireTx : List Nat := 1 :: (List.replicate 64 0 ++ [9, 8, 7])

/-! ## Signal processing and deduplication
(src/unnamed/part_023, `ExecutorFast.ProcessSignalFast`,
`isDuplicateSignal`, `markSignalSeen`)

Times are in seconds.  The model follows `ProcessSignalFast` up to the
calls of `executeBuyFast` / `executeSellFast`, which claim C6 is about
reaching; the trade functions touch the position tracker but never the
dedup maps, so the second call may run against an arbitrarily replaced
position set. -/

/-- `DuplicateSignalTTL` (5 minutes, in seconds). -/
def DuplicateSignalTTL : Nat := 300

/-- `SignalCleanupTTL` (10 minutes, in seconds). -/
def SignalCleanupTTL : Nat := 600

/-- The `ExecutorFast` state read and written by `ProcessSignalFast`
before any trade: the dedup maps, the mint set of the position tracker
(for `hasMintPosition`), the entry counter, and the `seen2X` map. -/
structure ExecState where
  recentSignals : List (Int × Nat)
  recentMints : List (String × Nat)
  positionMints : List String
  totalEntrySignals : Nat
  seen2X : List String
deriving Repr, DecidableEq

/-- `ExecutorFast.isDuplicateSignal`: seen within `DuplicateSignalTTL`. -/
def isDuplicateSignal (now : Nat) (st : ExecState) (msgID : Int) : Bool :=
  match alookup st.recentSignals msgID with
  | some ts => now - ts < DuplicateSignalTTL
  | none => false

/-- `ExecutorFast.markSignalSeen`: record the id, then garbage-collect
both time maps (entries older than `SignalCleanupTTL`) and reset the
`seen2X` map when it exceeds 1000 entries. -/
def markSignalSeen (now : Nat) (st : ExecState) (msgID : Int) : ExecState :=
  { st with
    recentSignals := (ainsert st.recentSignals msgID now).filter
      (fun e => !(now - e.2 > SignalCleanupTTL))
    recentMints := st.recentMints.filter
      (fun e => !(now - e.2 > SignalCleanupTTL))
    seen2X := if st.seen2X.length > 1000 then [] else st.seen2X }

/-- `ExecutorFast.hasMintPosition`. -/
def hasMintPosition (st : ExecState) (mint : String) : Bool :=
  st.positionMints.contains mint

/-- How one `ProcessSignalFast` call ends: dropped at the empty-mint
check, dropped at the duplicate check, reaching `executeBuyFast`,
reaching `executeSellFast`, or returning without a trade (counted-only,
trading disabled, `Other` type, or `Exit` without a position). -/
inductive ProcOutcome where
  | skippedEmptyMint
  | skippedDuplicate
  | reachedBuy
  | reachedSell
  | noTrade
deriving Repr, DecidableEq

/-- `ExecutorFast.ProcessSignalFast` up to the trade dispatch: empty
mint returns immediately (before the duplicate check and before
marking); duplicates are dropped before any counting; otherwise the
signal is marked seen, entry signals are counted regardless of
auto-trading, and the trade paths are taken only when auto-trading is
enabled. -/
def processSignalFast (autoTrading : Bool) (now : Nat) (st : ExecState)
    (sig : Signal) : ProcOutcome × ExecState :=
  if sig.mint = "" then (ProcOutcome.skippedEmptyMint, st)
  else if isDuplicateSignal now st sig.msgID then (ProcOutcome.skippedDuplicate, st)
  else
    let st1 := markSignalSeen now st sig.msgID
    let st2 :=
      match sig.type with
      | SignalType.entry => { st1 with totalEntrySignals := st1.totalEntrySignals + 1 }
      | _ => st1
    if !autoTrading then (ProcOutcome.noTrade, st2)
    else
      match sig.type with
      | SignalType.entry => (ProcOutcome.reachedBuy, st2)
      | SignalType.exit =>
        if hasMintPosition st2 sig.mint then (ProcOutcome.reachedSell, st2)
        else (ProcOutcome.noTrade, st2)
      | SignalType.other => (ProcOutcome.noTrade, st2)

/-- The executor's initial dedup state (`NewExecutorFast`). -/
def execInit : ExecState :=
  { recentSignals := [], recentMints := [], positionMints := []
    totalEntrySignals := 0, seen2X := [] }

/-- A concrete tradeable Entry signal for mint `M`. -/
def exampleEntrySignal : Signal :=
  { tokenName := "TOK", mint := "M", type := SignalType.entry
    value := 57, unit := "%", msgID := 2, timestamp := 0 }

/-! ## The buy path (src/unnamed/part_023, `ExecutorFast.executeBuyFast`,
with src/internal/trading/position.go `PositionTracker.Add` / `Remove`)

The Jupiter / signer / RPC pipeline of each retry attempt is an oracle
`attempts : Nat → BuyAttempt` giving the first failing phase (or the
sent signature) of attempt `i`.  The durable sink, latency metrics,
logging, backoff sleeps and the asynchronous confirmation follow-ups do
not affect the tracker state this claim is about and are omitted. -/

/-- `MinTradeLamports` (0.005 SOL). -/
def MinTradeLamports : Nat := 5000000

/-- `MinAllocLamports` (0.001 SOL). -/
def MinAllocLamports : Nat := 1000000

/-- `trading.PositionTracker`: the mint-keyed position map and the
max-positions cap. -/
structure Tracker where
  positions : List (String × Position)
  maxPos : Nat
deriving Repr, DecidableEq

/-- `PositionTracker.CanOpen`. -/
def Tracker.canOpen (t : Tracker) : Bool := t.positions.length < t.maxPos

/-- `PositionTracker.Get` (also backs `hasMintPosition`). -/
def Tracker.get (t : Tracker) (mint : String) : Option Position :=
  alookup t.positions mint

/-- `PositionTracker.Add`: insert or replace by mint. -/
def Tracker.add (t : Tracker) (p : Position) : Tracker :=
  { t with positions := ainsert t.positions p.mint p }

/-- `PositionTracker.Remove`: delete by mint. -/
def Tracker.remove (t : Tracker) (mint : String) : Tracker :=
  { t with positions := aerase t.positions mint }

/-- `Position.SetStatsFromSignal`. -/
def setStatsFromSignal (now : Nat) (p : Position) (val : ℚ) (unit : String) : Position :=
  let realVal := if unit = "X" then val * 100 else val
  let p1 := { p with currentValue := realVal, lastUpdate := now }
  if p.entryValue > 0 then
    { p1 with pnlPercent := ((realVal / p.entryValue) - 1) * 100 }
  else p1

/-- Outcome of one retry attempt of the buy pipeline: the first phase
that failed (`GetSwapTransaction`, `SignSerializedTransaction`,
`SendTransaction`) with its error, or the sent signature. -/
inductive BuyAttempt where
  | jupiterErr (e : String)
  | signErr (e : String)
  | sendErr (e : String)
  | sent (txSig : String)
deriving Repr, DecidableEq

/-- The error carried by a failed attempt. -/
def BuyAttempt.errMsg : BuyAttempt → Option String
  | BuyAttempt.jupiterErr e | BuyAttempt.signErr e | BuyAttempt.sendErr e => some e
  | BuyAttempt.sent _ => none

/-- Observable events of one `executeBuyFast` call, in order. -/
inductive BuyEvent where
  | insertedPending (p : Position)
  | attemptMade (i : Nat)
  | simulated
  | removedPending (mint : String)
deriving Repr, DecidableEq

/-- The allocation computed by `executeBuyFast`:
`uint64(float64(balance) * maxAllocPercent / 100)`, floored at
`MinAllocLamports`. -/
def buyAlloc (balance : Nat) (maxAllocPercent : ℚ) : Nat :=
  let alloc0 := ((balance : ℚ) * maxAllocPercent / 100).floor.toNat
  if alloc0 < MinAllocLamports then MinAllocLamports else alloc0

/-- The PENDING position literal `executeBuyFast` inserts before its
first attempt (unset Go fields take their zero values). -/
def pendingPosition (alloc : Nat) (now : Nat) (sig : Signal) : Position :=
  { mint := sig.mint, tokenName := sig.tokenName
    size := (alloc : ℚ) / 1000000000
    entryValue := sig.value, entryUnit := sig.unit, entryTime := now
    entryTxSig := "PENDING", msgID := sig.msgID, poolAddr := ""
    currentValue := sig.value, pnlSol := 0, pnlPercent := 0
    reached2X := false, partialSold := false, tokenBalance := 0
    lastUpdate := 0 }

/-- The retry loop of `executeBuyFast` (`for attempt := 0; attempt <=
maxRetries`): each failing attempt records its error in `lastErr` and
continues; a sent transaction returns immediately; exhaustion returns
the last error.  `fuel` is the number of attempts left, `i` the index of
the next attempt. -/
def buyAttemptLoop (attempts : Nat → BuyAttempt) :
    Nat → Nat → String → List BuyEvent × Except String String
  | _, 0, lastErr => ([], Except.error lastErr)
  | i, fuel + 1, lastErr =>
    match attempts i with
    | BuyAttempt.sent s => ([BuyEvent.attemptMade i], Except.ok s)
    | BuyAttempt.jupiterErr e | BuyAttempt.signErr e | BuyAttempt.sendErr e =>
      let r := buyAttemptLoop attempts (i + 1) fuel e
      (BuyEvent.attemptMade i :: r.1, r.2)

/-- `ExecutorFast.executeBuyFast`: refuse when the tracker is full; with
an existing position for the mint, update its stats from the signal (no
buy); otherwise check the (simulation-overridden) balance, compute the
allocation, insert the PENDING position, and run the retry loop — in
simulation mode the loop body short-circuits to a mock success on its
first iteration.  On exhaustion the PENDING position is removed and the
last error returned.  Returns the final tracker, the event trace and
the Go return value. -/
def executeBuyFast (simMode : Bool) (maxAllocPercent : ℚ) (maxRetries : Nat)
    (tracker : Tracker) (balanceLamports : Nat) (now : Nat) (sig : Signal)
    (attempts : Nat → BuyAttempt) :
    Tracker × List BuyEvent × Except String Unit :=
  if !tracker.canOpen then
    (tracker, [], Except.error "max open positions reached")
  else
    match tracker.get sig.mint with
    | some pos =>
      (tracker.add (setStatsFromSignal now pos sig.value sig.unit), [], Except.ok ())
    | none =>
      let balance := if simMode then 1000000000 else balanceLamports
      if balance = 0 then
        (tracker, [], Except.error "wallet balance is 0 - fund your wallet to trade")
      else if balance < MinTradeLamports then
        (tracker, [], Except.error "balance too low for trade and fees")
      else
        let pending := pendingPosition (buyAlloc balance maxAllocPercent) now sig
        let tr1 := tracker.add pending
        if simMode then
          (tr1, [BuyEvent.insertedPending pending, BuyEvent.simulated], Except.ok ())
        else
          let r := buyAttemptLoop attempts 0 (maxRetries + 1) ""
          match r.2 with
          | Except.ok _ =>
            (tr1, BuyEvent.insertedPending pending :: r.1, Except.ok ())
          | Except.error e =>
            (tr1.remove sig.mint,
             BuyEvent.insertedPending pending :: r.1 ++ [BuyEvent.removedPending sig.mint],
             Except.error e)

/-- A concrete position used by witnesses: `Size = 0`. -/
def examplePosZero : Position :=
  { mint := "M", tokenName := "TOK", size := 0, entryValue := 5, entryUnit := "%"
    entryTime := 0, entryTxSig := "PENDING", msgID := 1, poolAddr := ""
    currentValue := 5, pnlSol := 0, pnlPercent := 0, reached2X := false
    partialSold := false, tokenBalance := 0, lastUpdate := 0 }

/-- A concrete position used by witnesses: `Size = 2`. -/
def examplePosTwo : Position :=
  { examplePosZero with size := 2 }

end SolanaBot

namespace SolanaBot

/-- Claim C1 (code bug): `GetAllTokenAccounts` issues only the
legacy-program sub-query.  Replaying the repository's own test
`TestGetAllTokenAccounts_PartialFailure` (legacy query succeeds empty,
Token-2022 query fails): `GetAllTokenAccounts` succeeds with a partial
(empty) result instead of failing, and it never issues the Token-2022
sub-query; the sibling `GetTokenAccountsByOwner` with an empty mint
does fail the batch, as the claim and the tests demand.  Replaying
`TestGetAllTokenAccounts_Batch` (both programs hold accounts):
`GetAllTokenAccounts` silently drops the Token-2022 account instead of
concatenating both lists. -/
theorem getAllTokenAccounts_legacy_only_c1 :
    getAllTokenAccounts partialFailureOracle "WalletOwner" =
      ([TokenFilter.byProgram TokenProgramID], Except.ok []) ∧
    getTokenAccountsByOwner partialFailureOracle "WalletOwner" "" =
      ([TokenFilter.byProgram TokenProgramID, TokenFilter.byProgram Token2022ProgramID],
        Except.error "failed to fetch Token-2022 accounts: http status 500: fail") ∧
    getAllTokenAccounts bothProgramsOracle "WalletOwner" =
      ([TokenFilter.byProgram TokenProgramID], Except.ok [acctLegacy]) := by
  refine ⟨?_, ?_, ?_⟩ <;> rfl

/-- Claim C4 (code bug): the ingress HTTP server has no rate limiter at
all — no request to any route is ever answered with HTTP 429, and in
particular 6 well-formed `POST /signal` requests from one source in the
same second are all accepted with 200, where the claim (and the
repository's own `TestServer_RateLimit`) demand at most 5 acceptances
and a 429 for the excess. -/
theorem server_no_rate_limit_c4 :
    (∀ (method path : String) (req : SignalRequest),
      serverRespond method path req ≠ 429) ∧
    (List.replicate 6 goodSignalRequest).map (serverRespond "POST" "/signal") =
      List.replicate 6 200 := by
  constructor
  · intro method path req
    unfold serverRespond handleSignal
    repeat' split
    all_goals decide
  · rfl

/-- Claim C7 (code bug): the increment sites of `reached2X` are guarded
only by the per-position `Reached2X` flag, never by the `seen2X` map
(which is declared "Track unique mints that hit 2X (prevent double
count)" but is never written or consulted).  Running
enter M, sell-signal M, remove M, re-enter M, sell-signal M from the
initial state increments the counter twice for the single mint M — the
claim says at most once per mint.  (`seen2X` stays empty throughout,
and a subsequent `ResetStats` drops the counter back to 0.) -/
theorem reached2X_double_count_c7 :
    (statsRun statsInit
      [StatsOp.enterPosition "M", StatsOp.sellSignalStats "M",
       StatsOp.removePosition "M", StatsOp.enterPosition "M",
       StatsOp.sellSignalStats "M"]).reached2X = 2 ∧
    (statsRun statsInit
      [StatsOp.enterPosition "M", StatsOp.sellSignalStats "M",
       StatsOp.removePosition "M", StatsOp.enterPosition "M",
       StatsOp.sellSignalStats "M"]).seen2X = [] ∧
    (statsRun statsInit
      [StatsOp.enterPosition "M", StatsOp.sellSignalStats "M",
       StatsOp.removePosition "M", StatsOp.enterPosition "M",
       StatsOp.sellSignalStats "M", StatsOp.resetStats]).reached2X = 0 := by
  refine ⟨?_, ?_, ?_⟩ <;> rfl

/-- Claim C5: in the RPC circuit state machine, after exactly 5 consecutive
primary failures recorded with no intervening success, a call within 30
seconds of the last failure skips the primary and goes straight to the
fallback; after only 4 failures the primary is still tried; and once more
than 30 seconds have elapsed since the last failure the primary is tried
again. -/
theorem rpcCall_circuit_c5 (c0 : RPCCircuit) (t1 t2 t3 t4 t5 now later : Nat)
    (pOk pOk2 pOk3 : Bool)
    (h0 : c0.failures = 0) (h0o : c0.circuitOpen = false)
    (hwithin : now - t5 ≤ 30) (hafter : 30 < later - t5) :
    (rpcCall now
      (recordFailure t5 (recordFailure t4 (recordFailure t3
        (recordFailure t2 (recordFailure t1 c0))))) pOk).1 = [CallStep.fallback] ∧
    ((rpcCall now
      (recordFailure t4 (recordFailure t3
        (recordFailure t2 (recordFailure t1 c0)))) pOk2).1.head? =
        some CallStep.primary) ∧
    ((rpcCall later
      (recordFailure t5 (recordFailure t4 (recordFailure t3
        (recordFailure t2 (recordFailure t1 c0))))) pOk3).1.head? =
        some CallStep.primary) := by
  have hle : ¬ (now - t5 > 30) := by omega
  have hgt : later - t5 > 30 := hafter
  refine ⟨?_, ?_, ?_⟩
  · simp [rpcCall, isCircuitOpen, recordFailure, h0, hle]
  · cases pOk2 <;>
      simp [rpcCall, isCircuitOpen, recordFailure, recordSuccess, h0, h0o]
  · cases pOk3 <;>
      simp [rpcCall, isCircuitOpen, recordFailure, recordSuccess, h0, hgt]

/-- Witness for C5 at a concrete circuit state and concrete times. -/
theorem rpcCall_circuit_c5_witness :
    (rpcCall 10
      (recordFailure 5 (recordFailure 4 (recordFailure 3
        (recordFailure 2 (recordFailure 1 ⟨0, 0, false⟩))))) true).1 =
          [CallStep.fallback] ∧
    ((rpcCall 10
      (recordFailure 4 (recordFailure 3
        (recordFailure 2 (recordFailure 1 ⟨0, 0, false⟩)))) true).1.head? =
        some CallStep.primary) ∧
    ((rpcCall 40
      (recordFailure 5 (recordFailure 4 (recordFailure 3
        (recordFailure 2 (recordFailure 1 ⟨0, 0, false⟩))))) true).1.head? =
        some CallStep.primary) :=
  rpcCall_circuit_c5 ⟨0, 0, false⟩ 1 2 3 4 5 10 40 true true true rfl rfl
    (by decide) (by decide)

/-- Claim C10: `Position.UpdateStats` always updates `TokenBalance`,
`PnLSol` and `LastUpdate`; when `Size ≤ 0` it returns multiple 0 and
leaves `PnLPercent` and `CurrentValue` unchanged; the division
`currentValSol / Size` is only performed under the `Size > 0` guard, in
which case the returned multiple is `currentValSol / Size`. -/
theorem updateStats_guard_c10 (now : Nat) (p : Position) (v : ℚ) (tb : Nat) :
    ((updateStats now p v tb).1.tokenBalance = tb ∧
     (updateStats now p v tb).1.pnlSol = v - p.size ∧
     (updateStats now p v tb).1.lastUpdate = now) ∧
    (p.size ≤ 0 →
      (updateStats now p v tb).2 = 0 ∧
      (updateStats now p v tb).1.pnlPercent = p.pnlPercent ∧
      (updateStats now p v tb).1.currentValue = p.currentValue) ∧
    (0 < p.size → (updateStats now p v tb).2 = v / p.size) := by
  by_cases h : 0 < p.size
  · refine ⟨by simp [updateStats, h], fun hle => absurd h (not_lt.mpr hle),
      fun _ => by simp [updateStats, h]⟩
  · refine ⟨by simp [updateStats, h], fun _ => by simp [updateStats, h],
      fun hlt => absurd hlt h⟩

/-- Witness for C10 at two concrete positions, one with `Size = 0`
(guard fails) and one with `Size = 2` (guard holds). -/
theorem updateStats_guard_c10_witness :
    ((updateStats 7 examplePosZero 3 9).2 = 0 ∧
     (updateStats 7 examplePosZero 3 9).1.pnlPercent = examplePosZero.pnlPercent ∧
     (updateStats 7 examplePosZero 3 9).1.currentValue = examplePosZero.currentValue) ∧
    (updateStats 7 examplePosTwo 3 9).2 = 3 / 2 := by
  have h0 := updateStats_guard_c10 7 examplePosZero 3 9
  have h2 := updateStats_guard_c10 7 examplePosTwo 3 9
  exact ⟨h0.2.1 (by norm_num [examplePosZero]),
         h2.2.2 (by norm_num [examplePosTwo, examplePosZero])⟩

/-- Counterexample to claim C2 as stated: with both buffers stale
(fetched at instant 0, TTL 10, call at instant 100) and a successful
synchronous refresh fetched at 100, `Get` takes the miss path, rotates,
and returns the PRE-rotation `next` buffer's value, whose `FetchedAt`
is 100 seconds old — not within the TTL.  The fresh hash lands in the
`next` buffer instead. -/
theorem bhGet_miss_stale_c2_counterexample :
    bhGet 10 100
      { current := some { hash := "h1", lastValidBlockHeight := 10, fetchedAt := 0 },
        next := some { hash := "h2", lastValidBlockHeight := 11, fetchedAt := 0 } }
      (some { hash := "h3", lastValidBlockHeight := 12, fetchedAt := 100 }) =
      (BHOutcome.ok { hash := "h2", lastValidBlockHeight := 11, fetchedAt := 0 } false,
       { current := some { hash := "h2", lastValidBlockHeight := 11, fetchedAt := 0 },
         next := some { hash := "h3", lastValidBlockHeight := 12, fetchedAt := 100 } }) ∧
    ¬ (100 - (0 : Nat) < 10) :=
  ⟨rfl, by decide⟩

/-- Claim C2, amended: every `Get` that succeeds via a hit path returns
a hash whose `FetchedAt` is within the TTL of the call; a `Get` that
succeeds via the miss path leaves the freshly fetched hash in the `next`
buffer and returns the pre-rotation `next` buffer's value, which is
fresh when the pre-rotation `current` buffer was null (bootstrap) but
may be stale otherwise. -/
theorem bhGet_freshness_c2_amended (ttl now : Nat) (st : BHState)
    (nh cb : CachedBlockhash) (hit : Bool) (st2 : BHState)
    (hfetch : nh.fetchedAt = now) (httl : 0 < ttl)
    (h : bhGet ttl now st (some nh) = (BHOutcome.ok cb hit, st2)) :
    (hit = true → now - cb.fetchedAt < ttl) ∧
    (hit = false →
      st2.next = some nh ∧
      (st.current = none → cb = nh ∧ now - cb.fetchedAt < ttl) ∧
      (∀ c0, st.current = some c0 → st.next = some cb)) := by
  rcases st with ⟨cur, nxt⟩
  cases cur with
  | some c =>
    by_cases hfc : bhFresh ttl now c
    · simp [bhGet, hfc] at h
      obtain ⟨⟨hcb, hhit⟩, hst⟩ := h
      subst hcb; subst hhit
      refine ⟨fun _ => ?_, fun hcontra => by simp at hcontra⟩
      simpa [bhFresh] using hfc
    · cases nxt with
      | some nb =>
        by_cases hfn : bhFresh ttl now nb
        · simp [bhGet, bhGetNext, hfc, hfn] at h
          obtain ⟨⟨hcb, hhit⟩, hst⟩ := h
          subst hcb; subst hhit
          refine ⟨fun _ => ?_, fun hcontra => by simp at hcontra⟩
          simpa [bhFresh] using hfn
        · simp [bhGet, bhGetNext, bhGetMiss, fetchAndRotate, hfc, hfn] at h
          obtain ⟨⟨hcb, hhit⟩, hst⟩ := h
          subst hcb; subst hhit
          refine ⟨fun hcontra => by simp at hcontra, fun _ => ?_⟩
          refine ⟨?_, fun hnone => by simp at hnone, fun c0 hc0 => rfl⟩
          rw [← hst]
      | none =>
        simp [bhGet, bhGetNext, bhGetMiss, fetchAndRotate, hfc] at h
  | none =>
    have hmiss :
        bhGetMiss { current := none, next := nxt } (some nh) =
          (BHOutcome.ok nh false,
            { current := some nh, next := some nh }) := by
      simp [bhGetMiss, fetchAndRotate]
    cases nxt with
    | some nb =>
      by_cases hfn : bhFresh ttl now nb
      · simp [bhGet, bhGetNext, hfn] at h
        obtain ⟨⟨hcb, hhit⟩, hst⟩ := h
        subst hcb; subst hhit
        refine ⟨fun _ => ?_, fun hcontra => by simp at hcontra⟩
        simpa [bhFresh] using hfn
      · simp [bhGet, bhGetNext, hfn, hmiss] at h
        obtain ⟨⟨hcb, hhit⟩, hst⟩ := h
        subst hcb; subst hhit
        refine ⟨fun hcontra => by simp at hcontra, fun _ => ?_⟩
        refine ⟨by rw [← hst], fun _ => ⟨rfl, ?_⟩, fun c0 hc0 => by simp at hc0⟩
        simp [hfetch, httl]
    | none =>
      simp [bhGet, bhGetNext, hmiss] at h
      obtain ⟨⟨hcb, hhit⟩, hst⟩ := h
      subst hcb; subst hhit
      refine ⟨fun hcontra => by simp at hcontra, fun _ => ?_⟩
      refine ⟨by rw [← hst], fun _ => ⟨rfl, ?_⟩, fun c0 hc0 => by simp at hc0⟩
      simp [hfetch, httl]

/-- Witness for the amended C2 on the miss path at a concrete state. -/
theorem bhGet_freshness_c2_amended_witness :
    (true = true → 100 - ({ hash := "h1", lastValidBlockHeight := 1, fetchedAt := 95 :
        CachedBlockhash }).fetchedAt < 10) ∧
    (true = false →
      ({ current := some { hash := "h1", lastValidBlockHeight := 1, fetchedAt := 95 },
         next := some { hash := "h2", lastValidBlockHeight := 2, fetchedAt := 96 } } :
          BHState).next = some { hash := "h3", lastValidBlockHeight := 3, fetchedAt := 100 } ∧
      (({ current := some { hash := "h1", lastValidBlockHeight := 1, fetchedAt := 95 },
          next := some { hash := "h2", lastValidBlockHeight := 2, fetchedAt := 96 } } :
           BHState).current = none →
        { hash := "h1", lastValidBlockHeight := 1, fetchedAt := 95 :
            CachedBlockhash } = { hash := "h3", lastValidBlockHeight := 3, fetchedAt := 100 } ∧
        100 - ({ hash := "h1", lastValidBlockHeight := 1, fetchedAt := 95 :
            CachedBlockhash }).fetchedAt < 10) ∧
      (∀ c0, ({ current := some { hash := "h1", lastValidBlockHeight := 1, fetchedAt := 95 },
                next := some { hash := "h2", lastValidBlockHeight := 2, fetchedAt := 96 } } :
            BHState).current = some c0 →
        ({ current := some { hash := "h1", lastValidBlockHeight := 1, fetchedAt := 95 },
           next := some { hash := "h2", lastValidBlockHeight := 2, fetchedAt := 96 } } :
            BHState).next =
          some { hash := "h1", lastValidBlockHeight := 1, fetchedAt := 95 })) :=
  bhGet_freshness_c2_amended 10 100
    { current := some { hash := "h1", lastValidBlockHeight := 1, fetchedAt := 95 },
      next := some { hash := "h2", lastValidBlockHeight := 2, fetchedAt := 96 } }
    { hash := "h3", lastValidBlockHeight := 3, fetchedAt := 100 }
    { hash := "h1", lastValidBlockHeight := 1, fetchedAt := 95 }
    true
    { current := some { hash := "h1", lastValidBlockHeight := 1, fetchedAt := 95 },
      next := some { hash := "h2", lastValidBlockHeight := 2, fetchedAt := 96 } }
    rfl (by decide) rfl

/-- Dropping exactly the 64 bytes of a signature prefix exposes the
suffix. -/
theorem drop64_append (l1 l2 : List Nat) (h : l1.length = 64) :
    (l1 ++ l2).drop 64 = l2 := by
  rw [← h]
  exact List.drop_left l1 l2

/-- Taking exactly the 64 bytes of a signature prefix recovers it. -/
theorem take64_append (l1 l2 : List Nat) (h : l1.length = 64) :
    (l1 ++ l2).take 64 = l1 := by
  rw [← h]
  exact List.take_left l1 l2

/-- Claim C3: for a wire transaction whose count byte is 0 or 1 (and
which is long enough to hold its declared signature slots, as any wire
transaction is), signing succeeds, the output's message bytes equal the
input's message bytes, and the output's first signature slot is exactly
the wallet's signature of those message bytes. -/
theorem signSerializedTransaction_roundtrip_c3
    (sign : List Nat → List Nat) (hsign : ∀ m, (sign m).length = 64)
    (tx : List Nat)
    (hcnt : sigCountByte tx = 0 ∨ sigCountByte tx = 1)
    (hne : tx ≠ [])
    (hlen : 1 + 64 * sigCountByte tx ≤ tx.length) :
    ∃ out, signSerializedTransaction sign tx = some out ∧
      sigCountByte out = 1 ∧
      messageBytes out = messageBytes tx ∧
      signatureSlot0 out = sign (messageBytes tx) := by
  cases tx with
  | nil => exact absurd rfl hne
  | cons c rest =>
    have hc : sigCountByte (c :: rest) = c := rfl
    rw [hc] at hcnt hlen
    rcases hcnt with h0 | h1
    · subst h0
      refine ⟨1 :: (sign rest ++ rest), ?_, rfl, ?_, ?_⟩
      · simp [signSerializedTransaction]
      · show (1 :: (sign rest ++ rest)).drop (1 + 64 * 1) = (0 :: rest).drop (1 + 64 * 0)
        simpa [messageBytes, sigCountByte] using drop64_append (sign rest) rest (hsign rest)
      · show ((1 :: (sign rest ++ rest)).drop 1).take 64 = sign ((0 :: rest).drop (1 + 64 * 0))
        simpa [messageBytes, sigCountByte] using take64_append (sign rest) rest (hsign rest)
    · subst h1
      have hr : 64 ≤ rest.length := by
        simpa using hlen
      refine ⟨1 :: (sign (rest.drop 64) ++ rest.drop 64), ?_, rfl, ?_, ?_⟩
      · simp [signSerializedTransaction, hr]
      · show (1 :: (sign (rest.drop 64) ++ rest.drop 64)).drop (1 + 64 * 1) =
          (1 :: rest).drop (1 + 64 * 1)
        simpa using drop64_append (sign (rest.drop 64)) (rest.drop 64) (hsign (rest.drop 64))
      · show ((1 :: (sign (rest.drop 64) ++ rest.drop 64)).drop 1).take 64 =
          sign ((1 :: rest).drop (1 + 64 * 1))
        simpa using take64_append (sign (rest.drop 64)) (rest.drop 64) (hsign (rest.drop 64))

/-- Witness for C3 at a concrete single-slot wire transaction and the
concrete 64-byte signer. -/
theorem signSerializedTransaction_roundtrip_c3_witness :
    ∃ out, signSerializedTransaction dummySign exampleWireTx = some out ∧
      sigCountByte out = 1 ∧
      messageBytes out = messageBytes exampleWireTx ∧
      signatureSlot0 out = dummySign (messageBytes exampleWireTx) :=
  signSerializedTransaction_roundtrip_c3 dummySign
    (fun m => by simp [dummySign])
    exampleWireTx (Or.inr rfl) (by decide) (by decide)

/-- Looking up a key right after inserting it finds the inserted value. -/
theorem alookup_ainsert {α β : Type} [DecidableEq α] (m : List (α × β)) (k : α) (v : β) :
    alookup (ainsert m k v) k = some v := by
  induction m with
  | nil => simp [ainsert, alookup]
  | cons e rest ih =>
    rcases e with ⟨k2, v2⟩
    by_cases hk : k2 = k <;> simp [ainsert, hk, alookup, ih]

/-- Erasing a freshly inserted key that was absent restores the map. -/
theorem aerase_ainsert_of_none {α β : Type} [DecidableEq α]
    (m : List (α × β)) (k : α) (v : β) (h : alookup m k = none) :
    aerase (ainsert m k v) k = m := by
  induction m with
  | nil => simp [ainsert, aerase]
  | cons e rest ih =>
    rcases e with ⟨k2, v2⟩
    by_cases hk : k2 = k
    · rw [hk] at h
      simp [alookup] at h
    · simp only [alookup, if_neg hk] at h
      simp [ainsert, hk, aerase, ih h]

/-- Looking up a key right after inserting it and filtering with a
predicate that keeps the fresh entry still finds the inserted value. -/
theorem alookup_filter_ainsert {α β : Type} [DecidableEq α]
    (m : List (α × β)) (k : α) (v : β) (p : α × β → Bool) (hp : p (k, v) = true) :
    alookup ((ainsert m k v).filter p) k = some v := by
  induction m with
  | nil =>
    simp [ainsert, List.filter_cons, hp, alookup]
  | cons e rest ih =>
    rcases e with ⟨k2, v2⟩
    by_cases hk : k2 = k
    · subst hk
      simp only [ainsert, if_pos rfl]
      simp [List.filter_cons, hp, alookup]
    · simp only [ainsert, if_neg hk]
      by_cases hpe : p (k2, v2) = true
      · simpa [List.filter_cons, hpe, alookup, hk] using ih
      · simpa [List.filter_cons, hpe] using ih

/-- After a `ProcessSignalFast` call that passes the empty-mint and
duplicate checks, the `recentSignals` map is the marked-and-cleaned map,
whatever the type of the signal and whether trading is enabled. -/
theorem processSignalFast_recentSignals (a : Bool) (now : Nat) (st : ExecState)
    (sig : Signal) (hm : ¬ sig.mint = "")
    (hd : isDuplicateSignal now st sig.msgID = false) :
    (processSignalFast a now st sig).2.recentSignals =
      (ainsert st.recentSignals sig.msgID now).filter
        (fun e => !(now - e.2 > SignalCleanupTTL)) := by
  unfold processSignalFast
  simp only [hm, hd, if_false, Bool.false_eq_true, ite_false]
  cases sig.type <;> cases a <;>
    simp [markSignalSeen, hasMintPosition] <;>
    (split <;> simp [markSignalSeen])

/-- A `ProcessSignalFast` call that was not dropped by the empty-mint
check nor by the duplicate check had a non-empty mint and an unseen (or
expired) message id. -/
theorem processSignalFast_passed (a : Bool) (now : Nat) (st : ExecState) (sig : Signal)
    (h1 : (processSignalFast a now st sig).1 ≠ ProcOutcome.skippedEmptyMint)
    (h2 : (processSignalFast a now st sig).1 ≠ ProcOutcome.skippedDuplicate) :
    ¬ sig.mint = "" ∧ isDuplicateSignal now st sig.msgID = false := by
  have hm : ¬ sig.mint = "" := by
    intro hm
    exact h1 (by simp [processSignalFast, hm])
  refine ⟨hm, ?_⟩
  by_contra hd
  have hd2 : isDuplicateSignal now st sig.msgID = true :=
    eq_true_of_ne_false hd
  exact h2 (by simp [processSignalFast, hm, hd2])

/-- A signal whose mint is non-empty and whose message id tests as a
duplicate is dropped with the state untouched. -/
theorem processSignalFast_duplicate (a : Bool) (now : Nat) (st : ExecState)
    (sig : Signal) (hm : ¬ sig.mint = "")
    (hd : isDuplicateSignal now st sig.msgID = true) :
    processSignalFast a now st sig = (ProcOutcome.skippedDuplicate, st) := by
  unfold processSignalFast
  simp [hm, hd]

/-- Core of C6: once a first signal with a non-empty mint has passed
the duplicate check, any signal with the same message id submitted
within `DuplicateSignalTTL` — whatever happened to the position set in
between — is dropped by the duplicate check, leaving the state
untouched. -/
theorem processSignalFast_second_dropped (a1 a2 : Bool) (now1 now2 : Nat)
    (st : ExecState) (sig1 sig2 : Signal) (posOverride : List String)
    (hmsg : sig1.msgID = sig2.msgID) (hwin : now2 - now1 < DuplicateSignalTTL)
    (hm1 : ¬ sig1.mint = "") (hd1 : isDuplicateSignal now1 st sig1.msgID = false)
    (hm2 : ¬ sig2.mint = "") :
    processSignalFast a2 now2
      { (processSignalFast a1 now1 st sig1).2 with positionMints := posOverride } sig2 =
    (ProcOutcome.skippedDuplicate,
     { (processSignalFast a1 now1 st sig1).2 with positionMints := posOverride }) := by
  have hrs := processSignalFast_recentSignals a1 now1 st sig1 hm1 hd1
  have hlook : alookup ((processSignalFast a1 now1 st sig1).2.recentSignals)
      sig2.msgID = some now1 := by
    rw [hrs, ← hmsg]
    exact alookup_filter_ainsert st.recentSignals sig1.msgID now1 _ (by simp)
  have hdup : isDuplicateSignal now2
      { (processSignalFast a1 now1 st sig1).2 with positionMints := posOverride }
      sig2.msgID = true := by
    unfold isDuplicateSignal
    rw [show ({ (processSignalFast a1 now1 st sig1).2 with
        positionMints := posOverride } : ExecState).recentSignals =
        (processSignalFast a1 now1 st sig1).2.recentSignals from rfl]
    rw [hlook]
    simpa [DuplicateSignalTTL] using hwin
  exact processSignalFast_duplicate a2 now2 _ sig2 hm2 hdup

/-- Counterexample to claim C6 as stated: with auto-trading disabled,
two copies of the same tradeable Entry signal (same `msg_id`, submitted
one second apart) are processed and NEITHER reaches `executeBuyFast` or
`executeSellFast` — the first stops at the trading-enabled check after
being counted, the second is dropped by the duplicate check — so
"exactly one reaches" fails. -/
theorem processSignalFast_dedup_c6_counterexample :
    (processSignalFast false 0 execInit exampleEntrySignal).1 = ProcOutcome.noTrade ∧
    (processSignalFast false 1
      (processSignalFast false 0 execInit exampleEntrySignal).2
      exampleEntrySignal).1 = ProcOutcome.skippedDuplicate ∧
    (1 : Nat) - 0 < DuplicateSignalTTL := by
  refine ⟨rfl, rfl, by norm_num [DuplicateSignalTTL]⟩

/-- Claim C6, amended: for two signals with the same `msg_id` processed
within 5 minutes of each other (the position set being arbitrary at the
second call), at most one of them reaches `executeBuyFast` or
`executeSellFast`; and whenever the first is not dropped by the
empty-mint or duplicate check and the second carries a non-empty mint,
the second is dropped by the duplicate check before any counting or
trading, leaving the state unchanged. -/
theorem processSignalFast_dedup_c6_amended (autoTrading : Bool) (now1 now2 : Nat)
    (st : ExecState) (sig1 sig2 : Signal) (posOverride : List String)
    (hmsg : sig1.msgID = sig2.msgID) (hwin : now2 - now1 < DuplicateSignalTTL) :
    (¬ (((processSignalFast autoTrading now1 st sig1).1 = ProcOutcome.reachedBuy ∨
         (processSignalFast autoTrading now1 st sig1).1 = ProcOutcome.reachedSell) ∧
        ((processSignalFast autoTrading now2
            { (processSignalFast autoTrading now1 st sig1).2 with
              positionMints := posOverride } sig2).1 = ProcOutcome.reachedBuy ∨
         (processSignalFast autoTrading now2
            { (processSignalFast autoTrading now1 st sig1).2 with
              positionMints := posOverride } sig2).1 = ProcOutcome.reachedSell))) ∧
    ((processSignalFast autoTrading now1 st sig1).1 ≠ ProcOutcome.skippedEmptyMint →
     (processSignalFast autoTrading now1 st sig1).1 ≠ ProcOutcome.skippedDuplicate →
     ¬ sig2.mint = "" →
     processSignalFast autoTrading now2
       { (processSignalFast autoTrading now1 st sig1).2 with
         positionMints := posOverride } sig2 =
       (ProcOutcome.skippedDuplicate,
        { (processSignalFast autoTrading now1 st sig1).2 with
          positionMints := posOverride })) := by
  constructor
  · rintro ⟨hr1, hr2⟩
    have hpass := processSignalFast_passed autoTrading now1 st sig1
      (by rcases hr1 with h | h <;> simp [h]) (by rcases hr1 with h | h <;> simp [h])
    by_cases hm2 : sig2.mint = ""
    · have hout : (processSignalFast autoTrading now2
          { (processSignalFast autoTrading now1 st sig1).2 with
            positionMints := posOverride } sig2).1 = ProcOutcome.skippedEmptyMint := by
        simp [processSignalFast, hm2]
      rcases hr2 with h | h <;> rw [hout] at h <;> simp at h
    · have hdrop := processSignalFast_second_dropped autoTrading autoTrading now1 now2
        st sig1 sig2 posOverride hmsg hwin hpass.1 hpass.2 hm2
      have hout : (processSignalFast autoTrading now2
          { (processSignalFast autoTrading now1 st sig1).2 with
            positionMints := posOverride } sig2).1 = ProcOutcome.skippedDuplicate := by
        rw [hdrop]
      rcases hr2 with h | h <;> rw [hout] at h <;> simp at h
  · intro h1 h2 hm2
    have hpass := processSignalFast_passed autoTrading now1 st sig1 h1 h2
    exact processSignalFast_second_dropped autoTrading autoTrading now1 now2 st
      sig1 sig2 posOverride hmsg hwin hpass.1 hpass.2 hm2

/-- Witness for the amended C6 at concrete signals and a concrete
replaced position set. -/
theorem processSignalFast_dedup_c6_amended_witness :
    processSignalFast true 1
      { (processSignalFast true 0 execInit exampleEntrySignal).2 with
        positionMints := ["X"] } exampleEntrySignal =
      (ProcOutcome.skippedDuplicate,
       { (processSignalFast true 0 execInit exampleEntrySignal).2 with
         positionMints := ["X"] }) :=
  (processSignalFast_dedup_c6_amended true 0 1 execInit exampleEntrySignal
    exampleEntrySignal ["X"] rfl (by decide)).2
    (by decide) (by decide) (by decide)

/-- One failing iteration of the buy retry loop records the attempt and
carries its error into the next iteration. -/
theorem buyAttemptLoop_step_err (attempts : Nat → BuyAttempt) (i n : Nat)
    (le e : String) (h : (attempts i).errMsg = some e) :
    buyAttemptLoop attempts i (n + 1) le =
      (BuyEvent.attemptMade i :: (buyAttemptLoop attempts (i + 1) n e).1,
       (buyAttemptLoop attempts (i + 1) n e).2) := by
  cases ha : attempts i with
  | sent s =>
    rw [ha] at h
    simp [BuyAttempt.errMsg] at h
  | jupiterErr e2 =>
    rw [ha] at h
    simp only [BuyAttempt.errMsg, Option.some.injEq] at h
    subst h
    simp [buyAttemptLoop, ha]
  | signErr e2 =>
    rw [ha] at h
    simp only [BuyAttempt.errMsg, Option.some.injEq] at h
    subst h
    simp [buyAttemptLoop, ha]
  | sendErr e2 =>
    rw [ha] at h
    simp only [BuyAttempt.errMsg, Option.some.injEq] at h
    subst h
    simp [buyAttemptLoop, ha]

/-- If every attempt the loop can make fails, the loop makes all of
them, in order, and ends with the error of the last one. -/
theorem buyAttemptLoop_all_fail (attempts : Nat → BuyAttempt) (errs : Nat → String) :
    ∀ (fuel i : Nat) (le : String),
      (∀ j, i ≤ j → j < i + fuel → (attempts j).errMsg = some (errs j)) →
      0 < fuel →
      buyAttemptLoop attempts i fuel le =
        ((List.range' i fuel).map BuyEvent.attemptMade,
         Except.error (errs (i + fuel - 1))) := by
  intro fuel
  induction fuel with
  | zero =>
    intro i le hf h0
    omega
  | succ n ih =>
    intro i le hf _
    have hstep := buyAttemptLoop_step_err attempts i n le (errs i)
      (hf i le_rfl (by omega))
    rcases Nat.eq_zero_or_pos n with hn | hn
    · subst hn
      rw [hstep]
      simp [buyAttemptLoop, List.range']
    · have hrec := ih (i + 1) (errs i)
        (fun j hj1 hj2 => hf j (by omega) (by omega)) hn
      rw [hstep, hrec]
      have hidx : i + 1 + n - 1 = i + (n + 1) - 1 := by omega
      rw [hidx]
      cases n with
      | zero => omega
      | succ n2 => simp [List.range']

/-- Claim C8: with capacity available, no existing position for the
mint, sufficient balance and simulation off, `executeBuyFast` inserts
the PENDING position (`entry_tx_sig = "PENDING"`) before its first
attempt — it is retrievable from the tracker at that point and the
insertion event precedes every attempt event — and when all
`maxRetries + 1` attempts fail it removes that PENDING position and
returns the last attempt's error, leaving no position for the mint. -/
theorem executeBuyFast_pending_cleanup_c8 (maxAllocPercent : ℚ) (maxRetries : Nat)
    (tracker : Tracker) (balanceLamports : Nat) (now : Nat) (sig : Signal)
    (attempts : Nat → BuyAttempt) (errs : Nat → String)
    (hcan : tracker.canOpen = true)
    (hnew : tracker.get sig.mint = none)
    (hbal : MinTradeLamports ≤ balanceLamports)
    (hfail : ∀ i, i ≤ maxRetries → (attempts i).errMsg = some (errs i)) :
    (pendingPosition (buyAlloc balanceLamports maxAllocPercent) now sig).mint = sig.mint ∧
    (pendingPosition (buyAlloc balanceLamports maxAllocPercent) now sig).entryTxSig =
      "PENDING" ∧
    (tracker.add (pendingPosition (buyAlloc balanceLamports maxAllocPercent) now sig)).get
        sig.mint =
      some (pendingPosition (buyAlloc balanceLamports maxAllocPercent) now sig) ∧
    executeBuyFast false maxAllocPercent maxRetries tracker balanceLamports now sig
        attempts =
      ((tracker.add (pendingPosition (buyAlloc balanceLamports maxAllocPercent) now
          sig)).remove sig.mint,
       BuyEvent.insertedPending
           (pendingPosition (buyAlloc balanceLamports maxAllocPercent) now sig) ::
         ((List.range' 0 (maxRetries + 1)).map BuyEvent.attemptMade ++
          [BuyEvent.removedPending sig.mint]),
       Except.error (errs maxRetries)) ∧
    ((tracker.add (pendingPosition (buyAlloc balanceLamports maxAllocPercent) now
        sig)).remove sig.mint).get sig.mint = none := by
  have hb0 : ¬ (balanceLamports = 0) := by
    have h5 : (5000000 : Nat) ≤ balanceLamports := hbal
    omega
  have hb1 : ¬ (balanceLamports < MinTradeLamports) := not_lt.mpr hbal
  have hloop := buyAttemptLoop_all_fail attempts errs (maxRetries + 1) 0 ""
    (fun j hj1 hj2 => hfail j (by omega)) (by omega)
  have hidx : 0 + (maxRetries + 1) - 1 = maxRetries := by omega
  rw [hidx] at hloop
  refine ⟨rfl, rfl, ?_, ?_, ?_⟩
  · exact alookup_ainsert tracker.positions sig.mint _
  · unfold executeBuyFast
    rw [hcan, hnew]
    simp only [Bool.not_true, Bool.false_eq_true, if_false, hb0, hb1, ite_false, hloop]
    simp
  · show alookup (aerase (ainsert tracker.positions sig.mint _) sig.mint) sig.mint = none
    rw [aerase_ainsert_of_none tracker.positions sig.mint _ hnew]
    exact hnew

/-- Witness for C8: a concrete fully failing buy (3 attempts, capacity
3, 0.01 SOL balance, 20 percent allocation) at a concrete signal. -/
theorem executeBuyFast_pending_cleanup_c8_witness :
    executeBuyFast false 20 2 { positions := [], maxPos := 3 } 10000000 0
        exampleEntrySignal (fun _ => BuyAttempt.sendErr "boom") =
      (({ positions := [], maxPos := 3 } : Tracker).add
          (pendingPosition (buyAlloc 10000000 20) 0 exampleEntrySignal) |>.remove
          exampleEntrySignal.mint,
       BuyEvent.insertedPending (pendingPosition (buyAlloc 10000000 20) 0
           exampleEntrySignal) ::
         ((List.range' 0 3).map BuyEvent.attemptMade ++
          [BuyEvent.removedPending exampleEntrySignal.mint]),
       Except.error "boom") ∧
    ((({ positions := [], maxPos := 3 } : Tracker).add
        (pendingPosition (buyAlloc 10000000 20) 0 exampleEntrySignal)).remove
        exampleEntrySignal.mint).get exampleEntrySignal.mint = none := by
  have h := executeBuyFast_pending_cleanup_c8 20 2 { positions := [], maxPos := 3 }
    10000000 0 exampleEntrySignal (fun _ => BuyAttempt.sendErr "boom") (fun _ => "boom")
    rfl rfl (by norm_num [MinTradeLamports]) (fun i _ => rfl)
  exact ⟨h.2.2.2.1, h.2.2.2.2⟩

/-- Auxiliary for C9: along any run of rotations whose fetch instants
are non-decreasing and bounded below by both buffers, every value the
`current` buffer ends up holding was fetched no earlier than `L`,
provided both starting buffers were. -/
theorem bhRun_lower (fs : List (Option CachedBlockhash)) :
    ∀ (st : BHState) (t0 L : Nat),
      (∀ c, st.current = some c → L ≤ c.fetchedAt ∧ c.fetchedAt ≤ t0) →
      (∀ n, st.next = some n → L ≤ n.fetchedAt ∧ n.fetchedAt ≤ t0) →
      L ≤ t0 → timesOK t0 fs →
      ∀ c2, (bhRun st fs).current = some c2 → L ≤ c2.fetchedAt := by
  induction fs with
  | nil =>
    intro st t0 L hc hn hL hts c2 h2
    exact (hc c2 h2).1
  | cons f rest ih =>
    intro st t0 L hc hn hL hts c2 h2
    cases f with
    | none =>
      refine ih st t0 L hc hn hL hts c2 ?_
      simpa [bhRun, fetchAndRotate, List.foldl_cons] using h2
    | some nh =>
      obtain ⟨ht1, ht2⟩ := hts
      have hLn : L ≤ nh.fetchedAt := le_trans hL ht1
      by_cases hcur : st.current = none
      · have hstep : (fetchAndRotate st (some nh)).1 =
            { current := some nh, next := some nh } := by
          simp [fetchAndRotate, hcur]
        refine ih (fetchAndRotate st (some nh)).1 nh.fetchedAt L ?_ ?_ hLn ht2 c2 ?_
        · intro c3 hc3
          rw [hstep] at hc3
          simp only [Option.some.injEq] at hc3
          subst hc3
          exact ⟨hLn, le_refl _⟩
        · intro n3 hn3
          rw [hstep] at hn3
          simp only [Option.some.injEq] at hn3
          subst hn3
          exact ⟨hLn, le_refl _⟩
        · simpa [bhRun, List.foldl_cons] using h2
      · have hstep : (fetchAndRotate st (some nh)).1 =
            { current := st.next, next := some nh } := by
          simp [fetchAndRotate, hcur]
        refine ih (fetchAndRotate st (some nh)).1 nh.fetchedAt L ?_ ?_ hLn ht2 c2 ?_
        · intro c3 hc3
          rw [hstep] at hc3
          obtain ⟨hg1, hg2⟩ := hn c3 hc3
          exact ⟨hg1, le_trans hg2 ht1⟩
        · intro n3 hn3
          rw [hstep] at hn3
          simp only [Option.some.injEq] at hn3
          subst hn3
          exact ⟨hLn, le_refl _⟩
        · simpa [bhRun, List.foldl_cons] using h2

/-- Claim C9: across any sequence of `fetchAndRotate` executions
(bootstrap included), the `FetchedAt` a reader observes on the `current`
buffer is monotonically non-decreasing: whatever the `current` buffer
holds after the run was fetched no earlier than what it held before,
given the standing buffer invariant (`next` no older than `current`,
both no newer than the clock) and fetch instants that only move
forward. -/
theorem blockhash_current_monotone_c9 (st : BHState) (t0 : Nat)
    (fs : List (Option CachedBlockhash))
    (hinv : bhInv st) (hb : bhBound st t0) (hts : timesOK t0 fs) :
    ∀ c c2, st.current = some c → (bhRun st fs).current = some c2 →
      c.fetchedAt ≤ c2.fetchedAt := by
  intro c c2 hc h2
  refine bhRun_lower fs st t0 c.fetchedAt ?_ ?_ (hb.1 c hc) hts c2 h2
  · intro c3 hc3
    rw [hc] at hc3
    simp only [Option.some.injEq] at hc3
    subst hc3
    exact ⟨le_refl _, hb.1 c hc⟩
  · intro n3 hn3
    exact ⟨hinv c n3 hc hn3, hb.2 n3 hn3⟩

/-- Witness for C9: one rotation on a concrete state moves the younger
`next` value into `current`. -/
theorem blockhash_current_monotone_c9_witness :
    (bhRun
      { current := some { hash := "h0", lastValidBlockHeight := 50, fetchedAt := 5 },
        next := some { hash := "h1", lastValidBlockHeight := 51, fetchedAt := 6 } }
      [some { hash := "h2", lastValidBlockHeight := 52, fetchedAt := 7 }]).current =
      some { hash := "h1", lastValidBlockHeight := 51, fetchedAt := 6 } ∧
    ({ hash := "h0", lastValidBlockHeight := 50, fetchedAt := 5 :
        CachedBlockhash }).fetchedAt ≤
      ({ hash := "h1", lastValidBlockHeight := 51, fetchedAt := 6 :
        CachedBlockhash }).fetchedAt := by
  constructor
  · rfl
  · refine blockhash_current_monotone_c9
      { current := some { hash := "h0", lastValidBlockHeight := 50, fetchedAt := 5 },
        next := some { hash := "h1", lastValidBlockHeight := 51, fetchedAt := 6 } } 6
      [some { hash := "h2", lastValidBlockHeight := 52, fetchedAt := 7 }]
      ?_ ?_ ?_ _ _ rfl rfl
    · intro c n hc hn
      simp only [Option.some.injEq] at hc hn
      subst hc; subst hn
      decide
    · constructor
      · intro c hc
        simp only [Option.some.injEq] at hc
        subst hc
        decide
      · intro n hn
        simp only [Option.some.injEq] at hn
        subst hn
        decide
    · exact ⟨by decide, trivial⟩

end SolanaBot
